import Mathlib

/-!
Shallow embedding of the `empire-config` repository (package `ecfg`):
`src/ecfg/library/configuration.py` and `src/ecfg/library/config_manager.py`.

Modelling conventions:
- JSON values are the inductive `JValue`; a JSON object is an association
  list `JMap` with unique keys (Python dicts cannot hold duplicate keys).
- The external collaborators (orjson and base85) are exact-round-trip
  codecs per the repository's use, so a file's on-disk content is kept
  symbolically: `FileData.plain m` is the plain-JSON text of `m`,
  `FileData.b85 m` is the base85 wrapping of that text.  Decoding with the
  wrong mode is a codec error.
- The filesystem is an association list path -> FileData; `path.isfile`
  is membership.  Every operation additionally returns the list of file
  I/O events it performed, so "no file I/O occurs" is expressible.
- Python exceptions are `Except` errors; `ProgrammingException` raised by
  `reload_config` is `MgrError.notLoaded`.
- `os.path.join a b` is modelled as `a ++ "/" ++ b` (POSIX separator,
  relative second component, as in every call site of the source).
- `str.lower()` and `str.strip()` are modelled by structural recursion
  over the character list (`pyLower`, `pyStrip`), so that the kernel can
  evaluate them on concrete names.
-/

/-- A JSON scalar/value as stored in configuration maps. -/
inductive JValue where
  | jstr (s : String)
  | jnum (n : Int)
  | jbool (b : Bool)
  | jnull
deriving DecidableEq, Repr

/-- A JSON object: association list with (by convention) unique keys. -/
abbrev JMap := List (String × JValue)

/-- Find the value bound to `key` in an association list. -/
def assocFind {α : Type} : List (String × α) → String → Option α
  | [], _ => none
  | (k, v) :: rest, key => if k = key then some v else assocFind rest key

/-- Python dict assignment `m[k] = v`: replace in place if the key exists
(keeping insertion order), append otherwise. -/
def assocSet {α : Type} : List (String × α) → String → α → List (String × α)
  | [], key, v => [(key, v)]
  | (k, w) :: rest, key, v =>
      if k = key then (key, v) :: rest else (k, w) :: assocSet rest key v

/-- Python `del m[k]`: remove the (first) binding of `key`. -/
def assocErase {α : Type} : List (String × α) → String → List (String × α)
  | [], _ => []
  | (k, w) :: rest, key => if k = key then rest else (k, w) :: assocErase rest key

/-- Boolean membership of a string in a list of strings. -/
def strMem (key : String) : List String → Bool
  | [] => false
  | k :: rest => if k = key then true else strMem key rest

/-- The configuration classes of `configuration.py`.  `dictConfig` is
`DictConfig`; `dataclassConfig defaults` is a flat `DataclassConfiguration`
subclass whose fields (in declaration order) all carry default values, so
that the zero-argument construction `config_type()` used by
`ConfigManager._load_config` succeeds. -/
inductive ConfigType where
  | dictConfig
  | dataclassConfig (defaults : List (String × JValue))
deriving DecidableEq, Repr

/-- A live configuration instance (`BaseConfiguration` object). -/
inductive Inst where
  | dict (m : JMap)
  | dataclass (vals : List (String × JValue))
deriving DecidableEq, Repr

/-- Zero-argument construction `config_type()`: `DictConfig()` is the empty
dict; a dataclass constructs with every field at its default. -/
def ConfigType.defaultInst : ConfigType → Inst
  | .dictConfig => .dict []
  | .dataclassConfig defaults => .dataclass defaults

/-- Errors raised while loading/decoding a configuration file. -/
inductive LoadError where
  | codecError
  | schemaMismatch
deriving DecidableEq, Repr

/-- `cls(**data)` rejects keyword arguments that are not field names. -/
def allKeysIn {α : Type} : List (String × α) → List String → Bool
  | [], _ => true
  | kv :: rest, keys => if strMem kv.1 keys then allKeysIn rest keys else false

/-- Field list produced by `cls(**data)`: each declared field takes the
value bound in `data`, or its default when absent. -/
def buildFields (data : JMap) (defaults : List (String × JValue)) :
    List (String × JValue) :=
  defaults.map (fun fd => (fd.1, (assocFind data fd.1).getD fd.2))

/-- `from_json` of `configuration.py`: `DictConfig.from_json` wraps the map
as the instance; `DataclassConfiguration.from_json` is `cls(**data)`, a
`TypeError` (schema mismatch) when `data` holds a non-field key. -/
def ConfigType.fromJson : ConfigType → JMap → Except LoadError Inst
  | .dictConfig, m => .ok (.dict m)
  | .dataclassConfig defaults, m =>
      if allKeysIn m (defaults.map Prod.fst) then
        .ok (.dataclass (buildFields m defaults))
      else
        .error .schemaMismatch

/-- `to_json` of `configuration.py`: `DictConfig.to_json` returns itself;
`DataclassConfiguration.to_json` is `dataclasses.asdict`, the flat map of
the declared fields. -/
def Inst.toJson : Inst → JMap
  | .dict m => m
  | .dataclass vals => vals

/-- On-disk content of one `.ecfg` file, kept symbolically: the JSON map
together with whether it is base85-wrapped. -/
inductive FileData where
  | plain (m : JMap)
  | b85 (m : JMap)
deriving DecidableEq, Repr

/-- Reading a file in the given mode: `is_encoded` expects base85-wrapped
JSON, plain mode expects raw JSON; a mode mismatch is a codec error. -/
def decodeFile (isEnc : Bool) : FileData → Except LoadError JMap
  | .plain m => if isEnc then .error .codecError else .ok m
  | .b85 m => if isEnc then .ok m else .error .codecError

/-- Content written by `_save_config`: base85-wrapped JSON when
`is_encoded`, plain JSON otherwise. -/
def encodeFile (isEnc : Bool) (m : JMap) : FileData :=
  if isEnc then .b85 m else .plain m

/-- The `_Configuration` record of `config_manager.py` (frozen dataclass):
one registry entry.  `path` is `Option String` because the non-serializable
branch stores the caller's `config_path`, which may be `None`. -/
structure ConfigRecord where
  config : Inst
  is_encoded : Bool
  type_ : ConfigType
  path : Option String
  serializable : Bool
deriving DecidableEq, Repr

/-- The mutable state `ConfigManager` acts on: the class-level registry
`_instances` plus the filesystem. -/
structure MState where
  instances : List (String × ConfigRecord)
  fs : List (String × FileData)
deriving DecidableEq, Repr

/-- A file-I/O event performed by an operation. -/
inductive FsEvent where
  | checkExists (p : String)
  | readFile (p : String)
  | writeFile (p : String) (d : FileData)
deriving DecidableEq, Repr

/-- Errors of the manager API. -/
inductive MgrError where
  | notLoaded (name : String)
  | loadErr (e : LoadError)
deriving DecidableEq, Repr

/-- Whitespace characters stripped by Python's `str.strip()`
(the ASCII ones relevant to configuration names). -/
def isWs (c : Char) : Bool :=
  c = ' ' || c = '\t' || c = '\n' || c = '\r'

/-- Drop leading whitespace from a character list. -/
def dropLeadingWs : List Char → List Char
  | [] => []
  | c :: rest => if isWs c then dropLeadingWs rest else c :: rest

/-- Python `str.strip()`: remove leading and trailing whitespace. -/
def pyStrip (str : String) : String :=
  ⟨(dropLeadingWs ((dropLeadingWs str.data).reverse)).reverse⟩

/-- Python `str.lower()`: lower-case every character. -/
def pyLower (str : String) : String :=
  ⟨str.data.map Char.toLower⟩

/-- `ConfigManager.get_effective_config_name`: `config_name.lower().strip()`. -/
def get_effective_config_name (config_name : String) : String :=
  pyStrip (pyLower config_name)

/-- `ConfigManager.get_full_config_path`: `{config_path|home/.empire}/{name}.ecfg`;
`if not config_path` treats both `None` and the empty string as absent. -/
def get_full_config_path (home : String) (config_name : String)
    (config_path : Option String) : String :=
  match config_path with
  | none => home ++ "/" ++ ".empire" ++ "/" ++ config_name ++ ".ecfg"
  | some p =>
      if p = "" then home ++ "/" ++ ".empire" ++ "/" ++ config_name ++ ".ecfg"
      else p ++ "/" ++ config_name ++ ".ecfg"

/-- `ConfigManager._load_config`.  Faithful to the source:
- `serializable = False`: store a default instance with `is_encoded=True`
  (hard-coded in the source), the raw `config_path`, `serializable=False`;
  no file access.
- otherwise resolve the full path; if the file exists, decode it in the
  requested mode and build the instance with `config_type().from_json`;
  if not, store a default instance.  The stored path is the resolved one. -/
def load_config (home : String) (s : MState) (config_name : String)
    (config_type : ConfigType) (config_path : Option String)
    (is_encoded : Bool) (serializable : Bool) :
    Except LoadError (Inst × MState × List FsEvent) :=
  if serializable = false then
    let r : ConfigRecord :=
      ⟨config_type.defaultInst, true, config_type, config_path, false⟩
    .ok (r.config, ⟨assocSet s.instances config_name r, s.fs⟩, [])
  else
    let fullPath := get_full_config_path home config_name config_path
    match assocFind s.fs fullPath with
    | some fdata =>
        match decodeFile is_encoded fdata with
        | .error e => .error e
        | .ok m =>
            match config_type.fromJson m with
            | .error e => .error e
            | .ok inst =>
                let r : ConfigRecord :=
                  ⟨inst, is_encoded, config_type, some fullPath, true⟩
                .ok (r.config, ⟨assocSet s.instances config_name r, s.fs⟩,
                  [.checkExists fullPath, .readFile fullPath])
    | none =>
        let r : ConfigRecord :=
          ⟨config_type.defaultInst, is_encoded, config_type, some fullPath, true⟩
        .ok (r.config, ⟨assocSet s.instances config_name r, s.fs⟩,
          [.checkExists fullPath])

/-- `ConfigManager.get_config`: normalize the name; on a registry hit
return the stored instance (no re-check of the arguments), else load. -/
def get_config (home : String) (s : MState) (config_name : String)
    (config_type : ConfigType) (config_path : Option String)
    (is_encoded : Bool) (serializable : Bool) :
    Except LoadError (Inst × MState × List FsEvent) :=
  let n := get_effective_config_name config_name
  match assocFind s.instances n with
  | some r => .ok (r.config, s, [])
  | none => load_config home s n config_type config_path is_encoded serializable

/-- `ConfigManager.reload_config`: normalize; raise `ProgrammingException`
when not registered; else re-run `_load_config` with the stored
type/path/is_encoded/serializable. -/
def reload_config (home : String) (s : MState) (config_name : String) :
    Except MgrError (Inst × MState × List FsEvent) :=
  let n := get_effective_config_name config_name
  match assocFind s.instances n with
  | none => .error (.notLoaded n)
  | some cur =>
      match load_config home s n cur.type_ cur.path cur.is_encoded
          cur.serializable with
      | .error e => .error (.loadErr e)
      | .ok res => .ok res

/-- `ConfigManager.close_config_without_save`: normalize; delete the entry
if present (no-op otherwise); nothing is written. -/
def close_config_without_save (s : MState) (config_name : String) :
    MState × List FsEvent :=
  let n := get_effective_config_name config_name
  (⟨assocErase s.instances n, s.fs⟩, [])

/-- `ConfigManager._save_config`: skip non-serializable records; otherwise
write the encoded `to_json` map to the stored path.  `open(None, ...)`
(a `None` path) would raise, modelled as `.error ()`; serializable records
always carry a resolved path in reachable states. -/
def save_config (fs : List (String × FileData)) (r : ConfigRecord) :
    Except Unit (List (String × FileData) × List FsEvent) :=
  if r.serializable = false then .ok (fs, [])
  else
    match r.path with
    | none => .error ()
    | some p =>
        let d := encodeFile r.is_encoded r.config.toJson
        .ok (assocSet fs p d, [.writeFile p d])

/-- Iteration of `ConfigManager.save` over `_instances.values()`. -/
def saveLoop (recs : List (String × ConfigRecord))
    (fs : List (String × FileData)) :
    Except Unit (List (String × FileData) × List FsEvent) :=
  match recs with
  | [] => .ok (fs, [])
  | (_, r) :: rest =>
      match save_config fs r with
      | .error e => .error e
      | .ok (fs1, evs) =>
          match saveLoop rest fs1 with
          | .error e => .error e
          | .ok (fs2, evs1) => .ok (fs2, evs ++ evs1)

/-- `ConfigManager.save`: persist every registered record in registry
order; the registry itself is not touched. -/
def save (s : MState) : Except Unit (MState × List FsEvent) :=
  match saveLoop s.instances s.fs with
  | .error e => .error e
  | .ok (fs2, evs) => .ok (⟨s.instances, fs2⟩, evs)

/-- Events of a save pass: one `writeFile` per serializable record, at its
stored path, with its stored encoding; nothing for the others. -/
def savedEvents (recs : List (String × ConfigRecord)) : List FsEvent :=
  recs.filterMap (fun kv =>
    if kv.2.serializable = true then
      (kv.2.path).map
        (fun p => FsEvent.writeFile p (encodeFile kv.2.is_encoded kv.2.config.toJson))
    else none)

theorem assocFind_none_of_not_mem {α : Type} (m : List (String × α)) (key : String)
    (h : key ∉ m.map Prod.fst) : assocFind m key = none := by
  induction m with
  | nil => rfl
  | cons hd tl ih =>
      rw [List.map_cons] at h
      simp only [List.mem_cons, not_or] at h
      rw [assocFind, if_neg (fun he => h.1 he.symm)]
      exact ih h.2

theorem assocFind_assocErase_ne {α : Type} (m : List (String × α)) (k key : String)
    (h : key ≠ k) : assocFind (assocErase m k) key = assocFind m key := by
  induction m with
  | nil => rfl
  | cons hd tl ih =>
      obtain ⟨k0, v0⟩ := hd
      by_cases hk : k0 = k
      · subst hk
        rw [assocErase, if_pos rfl, assocFind, if_neg (fun he => h he.symm)]
      · rw [assocErase, if_neg hk]
        by_cases hke : k0 = key
        · rw [assocFind, if_pos hke, assocFind, if_pos hke]
        · rw [assocFind, if_neg hke, assocFind, if_neg hke, ih]

theorem assocFind_assocErase_self {α : Type} (m : List (String × α)) (k : String)
    (hnd : (m.map Prod.fst).Nodup) : assocFind (assocErase m k) k = none := by
  induction m with
  | nil => rfl
  | cons hd tl ih =>
      obtain ⟨k0, v0⟩ := hd
      rw [List.map_cons, List.nodup_cons] at hnd
      by_cases hk : k0 = k
      · rw [assocErase, if_pos hk]
        exact assocFind_none_of_not_mem tl k (hk ▸ hnd.1)
      · rw [assocErase, if_neg hk, assocFind, if_neg hk]
        exact ih hnd.2

theorem assocErase_of_find_none {α : Type} (m : List (String × α)) (k : String)
    (h : assocFind m k = none) : assocErase m k = m := by
  induction m with
  | nil => rfl
  | cons hd tl ih =>
      obtain ⟨k0, v0⟩ := hd
      rw [assocFind] at h
      by_cases hk : k0 = k
      · rw [if_pos hk] at h
        exact absurd h (by simp)
      · rw [if_neg hk] at h
        rw [assocErase, if_neg hk, ih h]

/-- A registry record used by concrete witness instances. -/
def sampleRecord : ConfigRecord :=
  ⟨Inst.dict [("a", .jnum 1)], false, .dictConfig, some "/h/.empire/app.ecfg", true⟩

/-- A state holding one loaded serializable configuration named `app`. -/
def sampleState : MState :=
  ⟨[("app", sampleRecord)], [("/h/.empire/app.ecfg", .plain [("a", .jnum 1)])]⟩

/-- A non-serializable registry record used by concrete witness instances. -/
def sampleMemRecord : ConfigRecord :=
  ⟨Inst.dict [("x", .jbool true)], true, .dictConfig, none, false⟩

/-- A state holding one non-serializable configuration named `mem`. -/
def sampleMemState : MState := ⟨[("mem", sampleMemRecord)], []⟩

/-- C3: when the normalized name is already registered, `get_config`
returns exactly the instance stored in the registry record, for any
`config_type`/`config_path`/`is_encoded`/`serializable` arguments of the
second call, leaving the whole state (registry and filesystem) unchanged
and performing no file I/O. -/
theorem get_config_cache_hit (home : String) (s : MState) (name : String)
    (ty : ConfigType) (cp : Option String) (ie ser : Bool) (r : ConfigRecord)
    (h : assocFind s.instances (get_effective_config_name name) = some r) :
    get_config home s name ty cp ie ser = .ok (r.config, s, []) := by
  simp only [get_config, h]

theorem get_config_cache_hit_witness :
    get_config "/h" sampleState "  App " .dictConfig (some "/other") true false =
      .ok (sampleRecord.config, sampleState, []) :=
  get_config_cache_hit "/h" sampleState "  App " .dictConfig (some "/other")
    true false sampleRecord (by decide)

/-- C6: `reload_config` on a name whose normalized form has no registry
entry fails with the not-loaded error (`ProgrammingException` in the
source).  The error is raised before any registry or filesystem mutation,
so the failed call produces no successor state at all in this embedding. -/
theorem reload_config_not_loaded (home : String) (s : MState) (name : String)
    (h : assocFind s.instances (get_effective_config_name name) = none) :
    reload_config home s name =
      .error (MgrError.notLoaded (get_effective_config_name name)) := by
  simp only [reload_config, h]

theorem reload_config_not_loaded_witness :
    reload_config "/h" sampleState "ghost" = .error (MgrError.notLoaded "ghost") :=
  reload_config_not_loaded "/h" sampleState "ghost" (by decide)

/-- C9: `close_config_without_save` performs no file I/O and leaves the
filesystem untouched; after it the normalized name is absent from the
registry, every other name's entry is unchanged, and when the name was
absent to begin with the whole state is unchanged. -/
theorem close_config_without_save_spec (s : MState) (name : String)
    (hnd : (s.instances.map Prod.fst).Nodup) :
    (close_config_without_save s name).2 = [] ∧
    (close_config_without_save s name).1.fs = s.fs ∧
    assocFind (close_config_without_save s name).1.instances
      (get_effective_config_name name) = none ∧
    (∀ k, k ≠ get_effective_config_name name →
      assocFind (close_config_without_save s name).1.instances k =
        assocFind s.instances k) ∧
    (assocFind s.instances (get_effective_config_name name) = none →
      (close_config_without_save s name).1 = s) := by
  refine ⟨rfl, rfl, ?_, ?_, ?_⟩
  · exact assocFind_assocErase_self _ _ hnd
  · intro k hk
    exact assocFind_assocErase_ne _ _ _ hk
  · intro habs
    simp only [close_config_without_save]
    rw [assocErase_of_find_none _ _ habs]

theorem close_config_without_save_spec_witness :
    assocFind (close_config_without_save sampleState "  App ").1.instances "app" =
      none ∧
    (close_config_without_save sampleState "  App ").1.fs = sampleState.fs :=
  ⟨(close_config_without_save_spec sampleState "  App " (by decide)).2.2.1,
   (close_config_without_save_spec sampleState "  App " (by decide)).2.1⟩

/-- C10: `reload_config` on a registered non-serializable record replaces
the stored instance with a freshly default-constructed instance of the
stored type, keeps the stored path, performs no file I/O (empty event
list, filesystem unchanged), and returns the new instance. -/
theorem reload_config_non_serializable (home : String) (s : MState)
    (name : String) (cur : ConfigRecord)
    (h : assocFind s.instances (get_effective_config_name name) = some cur)
    (hser : cur.serializable = false) :
    reload_config home s name =
      .ok (cur.type_.defaultInst,
        ⟨assocSet s.instances (get_effective_config_name name)
          ⟨cur.type_.defaultInst, true, cur.type_, cur.path, false⟩, s.fs⟩,
        []) := by
  simp only [reload_config, h, load_config, hser]
  simp

theorem reload_config_non_serializable_witness :
    reload_config "/h" sampleMemState "mem" =
      .ok (Inst.dict [],
        ⟨[("mem", ⟨Inst.dict [], true, .dictConfig, none, false⟩)], []⟩, []) :=
  reload_config_non_serializable "/h" sampleMemState "mem" sampleMemRecord
    (by decide) (by decide)

/-- C2 counterexample: calling `get_config` with `is_encoded := false` and
`serializable := false` on an unregistered name stores a record whose
`is_encoded` field is `true` (hard-coded in the non-serializable branch of
`_load_config`), not the caller's `false`. -/
theorem get_config_nonserializable_flag_cex :
    get_config "/h" ⟨[], []⟩ "n" ConfigType.dictConfig (some "/p") false false =
      .ok (Inst.dict [],
        ⟨[("n", ⟨Inst.dict [], true, ConfigType.dictConfig, some "/p", false⟩)],
          []⟩, []) ∧
    ((⟨Inst.dict [], true, ConfigType.dictConfig, some "/p", false⟩ :
        ConfigRecord).is_encoded = false → False) :=
  ⟨rfl, by decide⟩

/-- C2 (amended): `get_config` with `serializable := false` on an
unregistered name stores a record with `serializable = false`, a
default-constructed instance of the requested type, the caller's raw
`config_path`, and `is_encoded` hard-coded to `true` regardless of the
caller's argument (the field is inert either way); it performs no file
I/O and returns the default instance. -/
theorem get_config_nonserializable_spec (home : String) (s : MState)
    (name : String) (ty : ConfigType) (cp : Option String) (ie : Bool)
    (h : assocFind s.instances (get_effective_config_name name) = none) :
    get_config home s name ty cp ie false =
      .ok (ty.defaultInst,
        ⟨assocSet s.instances (get_effective_config_name name)
          ⟨ty.defaultInst, true, ty, cp, false⟩, s.fs⟩,
        []) := by
  simp only [get_config, h, load_config]
  simp

theorem get_config_nonserializable_spec_witness :
    get_config "/h" ⟨[], []⟩ "y" ConfigType.dictConfig none true false =
      .ok (Inst.dict [],
        ⟨[("y", ⟨Inst.dict [], true, ConfigType.dictConfig, none, false⟩)], []⟩,
        []) :=
  get_config_nonserializable_spec "/h" ⟨[], []⟩ "y" .dictConfig none true
    (by decide)

/-- C7: name normalization is lower-case followed by surrounding-whitespace
strip, and every registry operation keys on the normalized name: two raw
names with equal normalized forms are interchangeable for `get_config`,
`reload_config` and `close_config_without_save` on any state. -/
theorem normalization_keying (home : String) (s : MState) (a b : String)
    (h : get_effective_config_name a = get_effective_config_name b) :
    (∀ ty cp ie ser,
      get_config home s a ty cp ie ser = get_config home s b ty cp ie ser) ∧
    reload_config home s a = reload_config home s b ∧
    close_config_without_save s a = close_config_without_save s b ∧
    get_effective_config_name a = pyStrip (pyLower a) := by
  refine ⟨fun ty cp ie ser => ?_, ?_, ?_, rfl⟩ <;>
    simp only [get_config, reload_config, close_config_without_save, h]

theorem normalization_keying_witness :
    get_config "/h" sampleState "  MyApp " ConfigType.dictConfig none false true =
      get_config "/h" sampleState "myapp" ConfigType.dictConfig none false true :=
  (normalization_keying "/h" sampleState "  MyApp " "myapp" (by decide)).1
    ConfigType.dictConfig none false true

/-- C4: `get_config` with `serializable := true` on an unregistered name
whose resolved file path does not exist raises no error: a
default-constructed instance of the requested type is stored (with the
resolved path and the caller's encoding flag) and returned; the only file
access is the existence check, the filesystem is unchanged, so no file is
created before `save` runs. -/
theorem get_config_missing_file (home : String) (s : MState) (name : String)
    (ty : ConfigType) (cp : Option String) (ie : Bool)
    (hreg : assocFind s.instances (get_effective_config_name name) = none)
    (hfile : assocFind s.fs
      (get_full_config_path home (get_effective_config_name name) cp) = none) :
    get_config home s name ty cp ie true =
      .ok (ty.defaultInst,
        ⟨assocSet s.instances (get_effective_config_name name)
          ⟨ty.defaultInst, ie, ty,
            some (get_full_config_path home (get_effective_config_name name) cp),
            true⟩, s.fs⟩,
        [.checkExists
          (get_full_config_path home (get_effective_config_name name) cp)]) := by
  simp only [get_config, hreg, load_config, hfile]
  simp

theorem get_config_missing_file_witness :
    get_config "/h" ⟨[], []⟩ "new" ConfigType.dictConfig none false true =
      .ok (Inst.dict [],
        ⟨[("new", ⟨Inst.dict [], false, ConfigType.dictConfig,
            some "/h/.empire/new.ecfg", true⟩)], []⟩,
        [.checkExists "/h/.empire/new.ecfg"]) :=
  get_config_missing_file "/h" ⟨[], []⟩ "new" .dictConfig none false
    (by decide) (by decide)

theorem saveLoop_ok (recs : List (String × ConfigRecord))
    (fs : List (String × FileData))
    (h : ∀ kv ∈ recs, kv.2.serializable = true → (kv.2.path).isSome = true) :
    ∃ fs2, saveLoop recs fs = .ok (fs2, savedEvents recs) := by
  induction recs generalizing fs with
  | nil => exact ⟨fs, rfl⟩
  | cons hd tl ih =>
      obtain ⟨k, r⟩ := hd
      cases hser : r.serializable with
      | false =>
          obtain ⟨fs2, htl⟩ :=
            ih fs (fun kv hm hs => h kv (List.mem_cons_of_mem _ hm) hs)
          refine ⟨fs2, ?_⟩
          simp only [saveLoop, save_config, hser, savedEvents,
            List.filterMap_cons]
          simp [htl, savedEvents]
      | true =>
          have hp := h (k, r) (List.mem_cons_self _ _) hser
          obtain ⟨p, hp2⟩ := Option.isSome_iff_exists.mp hp
          have hp3 : r.path = some p := hp2
          obtain ⟨fs2, htl⟩ :=
            ih (assocSet fs p (encodeFile r.is_encoded r.config.toJson))
              (fun kv hm hs => h kv (List.mem_cons_of_mem _ hm) hs)
          refine ⟨fs2, ?_⟩
          simp only [saveLoop, save_config, hser, hp3, savedEvents,
            List.filterMap_cons]
          simp [htl, savedEvents]

/-- C5: `save` succeeds on any state whose serializable records carry a
stored path (true of every reachable state), leaves the registry mapping
unchanged, and its write events are exactly one `writeFile` per
serializable record — at that record's stored path, base85-wrapped JSON
when `is_encoded` and plain JSON otherwise (`encodeFile`), in registry
order — with no write at all for records with `serializable = false`
(`savedEvents` maps those to nothing). -/
theorem save_registry_unchanged (s : MState)
    (h : ∀ kv ∈ s.instances, kv.2.serializable = true → (kv.2.path).isSome = true) :
    (save s).toOption.map (fun res => (res.1.instances, res.2)) =
      some (s.instances, savedEvents s.instances) := by
  obtain ⟨fs2, hl⟩ := saveLoop_ok s.instances s.fs h
  simp [save, hl, Except.toOption]

/-- A registry holding one serializable and one non-serializable record. -/
def sampleMixedState : MState :=
  ⟨[("app", sampleRecord), ("mem", sampleMemRecord)], []⟩

theorem save_registry_unchanged_witness :
    (save sampleMixedState).toOption.map (fun res => (res.1.instances, res.2)) =
      some (sampleMixedState.instances, savedEvents sampleMixedState.instances) :=
  save_registry_unchanged sampleMixedState (by decide)

theorem strMem_of_mem (k : String) (keys : List String) (h : k ∈ keys) :
    strMem k keys = true := by
  induction keys with
  | nil => cases h
  | cons hd tl ih =>
      rcases List.mem_cons.mp h with he | hm
      · rw [strMem, if_pos he.symm]
      · rw [strMem]
        by_cases hk : hd = k
        · rw [if_pos hk]
        · rw [if_neg hk]
          exact ih hm

theorem allKeysIn_true {α : Type} (m : List (String × α)) (keys : List String)
    (h : ∀ kv ∈ m, kv.1 ∈ keys) : allKeysIn m keys = true := by
  induction m with
  | nil => rfl
  | cons hd tl ih =>
      rw [allKeysIn, if_pos (strMem_of_mem _ _ (h hd (List.mem_cons_self _ _)))]
      exact ih (fun kv hm => h kv (List.mem_cons_of_mem _ hm))

theorem buildFields_cons (data : JMap) (fd : String × JValue)
    (defs : List (String × JValue)) :
    buildFields data (fd :: defs) =
      (fd.1, (assocFind data fd.1).getD fd.2) :: buildFields data defs := rfl

theorem buildFields_cons_skip (k : String) (v : JValue) (data : JMap)
    (defaults : List (String × JValue)) (h : ∀ fd ∈ defaults, fd.1 ≠ k) :
    buildFields ((k, v) :: data) defaults = buildFields data defaults := by
  induction defaults with
  | nil => rfl
  | cons hd tl ih =>
      rw [buildFields_cons, buildFields_cons]
      have hne : k ≠ hd.1 := fun he => h hd (List.mem_cons_self _ _) he.symm
      rw [assocFind, if_neg hne]
      rw [ih (fun fd hm => h fd (List.mem_cons_of_mem _ hm))]

theorem buildFields_self (defaults vals : List (String × JValue))
    (hk : vals.map Prod.fst = defaults.map Prod.fst)
    (hnd : (defaults.map Prod.fst).Nodup) :
    buildFields vals defaults = vals := by
  induction defaults generalizing vals with
  | nil =>
      rw [List.map_nil, List.map_eq_nil_iff] at hk
      rw [hk]
      rfl
  | cons hd tl ih =>
      obtain ⟨dk, dv⟩ := hd
      cases vals with
      | nil => simp at hk
      | cons vhd vtl =>
          obtain ⟨vk, vv⟩ := vhd
          simp only [List.map_cons, List.cons.injEq] at hk
          obtain ⟨hk1, hk2⟩ := hk
          subst hk1
          rw [List.map_cons, List.nodup_cons] at hnd
          rw [buildFields_cons]
          have hskip : ∀ fd ∈ tl, fd.1 ≠ vk := by
            intro fd hm he
            have hmm : fd.1 ∈ List.map Prod.fst tl :=
              List.mem_map_of_mem Prod.fst hm
            rw [he] at hmm
            exact hnd.1 hmm
          rw [buildFields_cons_skip vk vv vtl tl hskip, ih vtl hk2 hnd.2]
          rw [assocFind, if_pos rfl]
          rfl

/-- C8: round-trip of the flat dataclass configuration: for any flat
dataclass type (distinct field names) and any well-formed instance of it
(fields exactly the declared ones, in declaration order),
`from_json (to_json r)` (`cls(**asdict(r))` in the source) reconstructs
an equal instance. -/
theorem dataclass_round_trip (defaults vals : List (String × JValue))
    (hk : vals.map Prod.fst = defaults.map Prod.fst)
    (hnd : (defaults.map Prod.fst).Nodup) :
    ConfigType.fromJson (.dataclassConfig defaults)
      (Inst.toJson (.dataclass vals)) = .ok (.dataclass vals) := by
  have hall : allKeysIn vals (defaults.map Prod.fst) = true :=
    allKeysIn_true _ _ (fun kv hm => hk ▸ List.mem_map_of_mem Prod.fst hm)
  simp only [ConfigType.fromJson, Inst.toJson]
  rw [if_pos hall, buildFields_self defaults vals hk hnd]

theorem dataclass_round_trip_witness :
    ConfigType.fromJson
      (.dataclassConfig [("host", .jstr "localhost"), ("port", .jnum 80)])
      (Inst.toJson (.dataclass [("host", .jstr "example"), ("port", .jnum 8080)])) =
      .ok (.dataclass [("host", .jstr "example"), ("port", .jnum 8080)]) :=
  dataclass_round_trip _ _ (by decide) (by decide)

/-- Filesystem for the reload scenario: the configuration file for `app`
exists at its resolved default path under `/home/u`. -/
def c1Fs : List (String × FileData) :=
  [("/home/u/.empire/app.ecfg", .plain [("k", .jstr "v")])]

/-- The state right after `get_config "app"` loaded that file: the record
stores the fully resolved path. -/
def c1Loaded : MState :=
  ⟨[("app", ⟨Inst.dict [("k", .jstr "v")], false, .dictConfig,
      some "/home/u/.empire/app.ecfg", true⟩)], c1Fs⟩

/-- C1 (code bug): `reload_config` passes the stored, already-resolved
path back through `get_full_config_path`, which joins `app.ecfg` onto it
again.  Concretely: after loading `app` from
`/home/u/.empire/app.ecfg`, reloading checks
`/home/u/.empire/app.ecfg/app.ecfg` (a different path), never reads the
original file, replaces the instance with a default-constructed one, and
stores the doubled path — contradicting both the spec and the method's
own docstring ("Reloads the already loaded configuration from file"). -/
theorem reload_config_path_doubling :
    get_config "/home/u" ⟨[], c1Fs⟩ "app" .dictConfig none false true =
      .ok (Inst.dict [("k", .jstr "v")], c1Loaded,
        [.checkExists "/home/u/.empire/app.ecfg",
         .readFile "/home/u/.empire/app.ecfg"]) ∧
    reload_config "/home/u" c1Loaded "app" =
      .ok (Inst.dict [],
        ⟨[("app", ⟨Inst.dict [], false, .dictConfig,
            some "/home/u/.empire/app.ecfg/app.ecfg", true⟩)], c1Fs⟩,
        [.checkExists "/home/u/.empire/app.ecfg/app.ecfg"]) ∧
    ("/home/u/.empire/app.ecfg/app.ecfg" = "/home/u/.empire/app.ecfg" →
      False) :=
  ⟨rfl, rfl, by decide⟩
